import Mathlib

/-!
Verification development for the HelpSellPossibleNow calendar service.

The repository exposes stored calendar events through a public iCalendar
(ICS) feed.  The verified core is the ICS renderer (`src/ics.py`: RFC 5545
text escaping, 75-column line folding, all-day vs timed event encoding) and
the feed endpoint controller (`app.py`: limit clamping, content fingerprint,
cache-busting redirect and conditional 304 logic).

Modelling conventions:
* Python strings are modelled as `String` / `List Char`.
* Python `datetime` values are modelled as UTC-aware instants (the stored
  columns are `timestamptz` and every datetime the feed path touches is UTC),
  so `astimezone(UTC)` is the identity and field-wise formatting applies.
* `datetime.now(UTC)` is passed in explicitly as a `now` parameter.
* Fallible parsing returns `Option`.
-/

/-! Section: RFC 5545 text escaping (`src/ics.py::_escape_ical_text`) -/

/-- Boolean prefix test on character lists (the prefix check that
`str.replace` performs at each position). -/
def isPrefixOfb : List Char → List Char → Bool
  | [], _ => true
  | _ :: _, [] => false
  | p :: ps, a :: as => p == a && isPrefixOfb ps as

/-- Python `str.replace(pat, repl)` for a non-empty pattern, scanning left to
right over non-overlapping occurrences.  The `skip` counter carries the
number of already-consumed pattern characters so the recursion is structural
in the subject list. -/
def replaceAux (pat repl : List Char) : List Char → Nat → List Char
  | [], _ => []
  | _ :: rest, k + 1 => replaceAux pat repl rest k
  | a :: rest, 0 =>
    if isPrefixOfb pat (a :: rest) ∧ pat ≠ [] then
      repl ++ replaceAux pat repl rest (pat.length - 1)
    else
      a :: replaceAux pat repl rest 0

/-- Python `s.replace(pat, repl)` on character lists. -/
def replaceList (pat repl s : List Char) : List Char :=
  replaceAux pat repl s 0

/-- `_escape_ical_text`, character-list core: the chained `str.replace`
calls, innermost (backslash) first, exactly in source order. -/
def escapeChars (s : List Char) : List Char :=
  replaceList ['\r'] ['\\', 'n']
    (replaceList ['\n'] ['\\', 'n']
      (replaceList ['\r', '\n'] ['\\', 'n']
        (replaceList [','] ['\\', ',']
          (replaceList [';'] ['\\', ';']
            (replaceList ['\\'] ['\\', '\\'] s)))))

/-- `_escape_ical_text` on `String`s, as used by the renderer. -/
def escape_ical_text (s : String) : String :=
  (escapeChars s.toList).asString

/-- Modelled from the spec: the RFC 5545 reverse-unescaping map the claims
measure the escaper against — backslash-backslash to backslash,
backslash-semicolon to semicolon, backslash-comma to comma, backslash-n to
newline (LF); every other character passes through unchanged. -/
def unescapeRfc5545 : List Char → List Char
  | [] => []
  | [a] => [a]
  | a :: b :: rest =>
    if a = '\\' ∧ (b = '\\' ∨ b = ';' ∨ b = ',' ∨ b = 'n') then
      (if b = 'n' then '\n' else b) :: unescapeRfc5545 rest
    else
      a :: unescapeRfc5545 (b :: rest)

/-! Section: Line folding (`src/ics.py::_fold_ical_line`)

The source's `limit` parameter is never overridden and its slice bounds are
the literal 75 in any case, so the model fixes the limit at 75. -/

/-- The physical lines `_fold_ical_line` produces: emit the first 75
characters, prepend a single space to the remainder, repeat while the
remainder is longer than 75 characters. -/
def foldChunks (line : List Char) : List (List Char) :=
  if line.length ≤ 75 then [line]
  else line.take 75 :: foldChunks (' ' :: line.drop 75)
termination_by line.length
decreasing_by simp [List.length_drop]; omega

/-- `_fold_ical_line` on `String`s: the chunks joined with CRLF. -/
def fold_ical_line (s : String) : String :=
  String.intercalate "\r\n" ((foldChunks s.toList).map List.asString)

/-- Strips the inserted space from one continuation line each. -/
def unfoldCont : List (List Char) → List Char
  | [] => []
  | c :: rest => c.drop 1 ++ unfoldCont rest

/-- Rejoins folded physical lines, removing each inserted CRLF-plus-space
break (structurally: concatenate, dropping the leading space of every
continuation line). -/
def unfoldChunks : List (List Char) → List Char
  | [] => []
  | c :: rest => c ++ unfoldCont rest

/-! Section: Dates and datetimes

The feed path only ever sees UTC-aware instants (timestamptz columns,
`datetime.now(UTC)`), so a datetime is its UTC field tuple and
`astimezone(UTC)` inside `_fmt_dt_utc` is the identity. -/

/-- A Python `datetime.date`. -/
structure PyDate where
  year : Nat
  month : Nat
  day : Nat
deriving DecidableEq, Repr

/-- A Python `datetime.datetime`, modelled as a UTC instant. -/
structure PyDatetime where
  year : Nat
  month : Nat
  day : Nat
  hour : Nat
  minute : Nat
  second : Nat
  microsecond : Nat
deriving DecidableEq, Repr

/-- `datetime.date()`: the calendar-date portion. -/
def PyDatetime.dateOf (t : PyDatetime) : PyDate :=
  { year := t.year, month := t.month, day := t.day }

/-- Gregorian leap-year rule (as used by Python `datetime` arithmetic). -/
def isLeapYear (y : Nat) : Bool :=
  y % 4 == 0 && (y % 100 != 0 || y % 400 == 0)

/-- Days in a Gregorian month. -/
def daysInMonth (y m : Nat) : Nat :=
  if m = 2 then (if isLeapYear y then 29 else 28)
  else if m = 4 ∨ m = 6 ∨ m = 9 ∨ m = 11 then 30
  else 31

/-- `d + timedelta(days=1)`: the next Gregorian calendar day. -/
def nextDay (d : PyDate) : PyDate :=
  if d.day < daysInMonth d.year d.month then
    { d with day := d.day + 1 }
  else if d.month < 12 then
    { year := d.year, month := d.month + 1, day := 1 }
  else
    { year := d.year + 1, month := 1, day := 1 }

/-- Zero-pad to two digits (strftime `%m`, `%d`, `%H`, `%M`, `%S`). -/
def pad2 (n : Nat) : String :=
  (if n < 10 then "0" else "") ++ toString n

/-- Zero-pad to four digits (strftime `%Y`). -/
def pad4 (n : Nat) : String :=
  (if n < 10 then "000" else if n < 100 then "00" else if n < 1000 then "0" else "")
    ++ toString n

/-- Zero-pad to six digits (isoformat microseconds). -/
def pad6 (n : Nat) : String :=
  (if n < 10 then "00000" else if n < 100 then "0000" else if n < 1000 then "000"
   else if n < 10000 then "00" else if n < 100000 then "0" else "")
    ++ toString n

/-- `_fmt_dt_utc`: strftime `%Y%m%dT%H%M%SZ` of the UTC instant. -/
def fmt_dt_utc (t : PyDatetime) : String :=
  pad4 t.year ++ pad2 t.month ++ pad2 t.day ++ "T"
    ++ pad2 t.hour ++ pad2 t.minute ++ pad2 t.second ++ "Z"

/-- `_fmt_date`: strftime `%Y%m%d`. -/
def fmt_date (d : PyDate) : String :=
  pad4 d.year ++ pad2 d.month ++ pad2 d.day

/-- `datetime.isoformat()` of a UTC-aware instant:
`YYYY-MM-DDTHH:MM:SS[.ffffff]+00:00`. -/
def isoformatUtc (t : PyDatetime) : String :=
  pad4 t.year ++ "-" ++ pad2 t.month ++ "-" ++ pad2 t.day ++ "T"
    ++ pad2 t.hour ++ ":" ++ pad2 t.minute ++ ":" ++ pad2 t.second
    ++ (if t.microsecond = 0 then "" else "." ++ pad6 t.microsecond)
    ++ "+00:00"

/-- Python `datetime < datetime` compares the field tuples lexicographically
(both operands share the UTC offset here).  Key list for the comparison. -/
def dtKey (t : PyDatetime) : List Nat :=
  [t.year, t.month, t.day, t.hour, t.minute, t.second, t.microsecond]

/-- Lexicographic strict comparison of equal-length `Nat` lists (Python
tuple `<`). -/
def natListLtb : List Nat → List Nat → Bool
  | [], [] => false
  | [], _ :: _ => true
  | _ :: _, [] => false
  | a :: as, b :: bs => if a < b then true else if b < a then false else natListLtb as bs

/-- Python `a < b` on datetimes. -/
def dtLtb (a b : PyDatetime) : Bool :=
  natListLtb (dtKey a) (dtKey b)

/-! Section: The IcsEvent value object (`src/ics.py::IcsEvent`) -/

/-- A value that is either a `date` or a `datetime` (the union type that the
renderer discriminates with `isinstance`). -/
inductive DateOrDatetime where
  | d (d : PyDate)
  | dt (t : PyDatetime)
deriving DecidableEq, Repr

/-- `IcsEvent` dataclass. -/
structure IcsEvent where
  uid : String
  dtstamp : PyDatetime
  dtstart : DateOrDatetime
  dtend : Option DateOrDatetime
  summary : Option String := none
  description : Option String := none
  location : Option String := none
  status : Option String := none
  transp : Option String := none
  url : Option String := none
  rrule : Option String := none
deriving DecidableEq, Repr

/-! Section: Rendering (`src/ics.py::render_calendar_ics`) -/

/-- Python truthiness of an optional string (`if e.summary:`): present and
non-empty. -/
def strTruthy : Option String → Bool
  | none => false
  | some s => s ≠ ""

/-- A free-text property line, omitted when the value is falsy. -/
def optTextLine (nameColon : String) (v : Option String) : List String :=
  match v with
  | none => []
  | some s => if s = "" then [] else [nameColon ++ escape_ical_text s]

/-- An escaped-and-uppercased property line (STATUS, TRANSP), omitted when
the value is falsy. -/
def optUpperLine (nameColon : String) (v : Option String) : List String :=
  match v with
  | none => []
  | some s => if s = "" then [] else [nameColon ++ (escape_ical_text s).toUpper]

/-- The DTSTART line: `VALUE=DATE` form for a plain date, UTC instant form
for a datetime (the `isinstance(e.dtstart, date) and not isinstance(...,
datetime)` branch). -/
def dtstartLines (e : IcsEvent) : List String :=
  match e.dtstart with
  | .d d0 => ["DTSTART;VALUE=DATE:" ++ fmt_date d0]
  | .dt t => ["DTSTART:" ++ fmt_dt_utc t]

/-- The DTEND line, omitted when `dtend` is `None`, with the same
date/instant branching as DTSTART. -/
def dtendLines (e : IcsEvent) : List String :=
  match e.dtend with
  | none => []
  | some (.d d0) => ["DTEND;VALUE=DATE:" ++ fmt_date d0]
  | some (.dt t) => ["DTEND:" ++ fmt_dt_utc t]

/-- The RRULE line: the renderer passes the stored rule value through
`_escape_ical_text` before emission. -/
def rruleLines (e : IcsEvent) : List String :=
  match e.rrule with
  | none => []
  | some r => if r = "" then [] else ["RRULE:" ++ escape_ical_text r]

/-- One `VEVENT` block's logical lines, in source emission order. -/
def eventLines (e : IcsEvent) : List String :=
  ["BEGIN:VEVENT", "UID:" ++ escape_ical_text e.uid, "DTSTAMP:" ++ fmt_dt_utc e.dtstamp]
    ++ dtstartLines e
    ++ dtendLines e
    ++ optTextLine "SUMMARY:" e.summary
    ++ optTextLine "DESCRIPTION:" e.description
    ++ optTextLine "LOCATION:" e.location
    ++ optUpperLine "STATUS:" e.status
    ++ optUpperLine "TRANSP:" e.transp
    ++ optTextLine "URL:" e.url
    ++ rruleLines e
    ++ ["END:VEVENT"]

/-- All event blocks, concatenated in input order. -/
def eventsLines : List IcsEvent → List String
  | [] => []
  | e :: rest => eventLines e ++ eventsLines rest

/-- Default `prodid` keyword argument of `render_calendar_ics`. -/
def defaultProdid : String := "-//HelpSellPossibleNow//Calendar//EN"

/-- Default `calname` keyword argument of `render_calendar_ics`. -/
def defaultCalname : String := "PossibleNow Events"

/-- The full logical line list of the calendar document. -/
def calendarLines (prodid calname : String) (events : List IcsEvent) : List String :=
  ["BEGIN:VCALENDAR", "VERSION:2.0", "PRODID:" ++ prodid, "CALSCALE:GREGORIAN",
   "METHOD:PUBLISH",
   "X-WR-CALNAME:" ++ escape_ical_text calname,
   "NAME:" ++ escape_ical_text calname]
    ++ eventsLines events
    ++ ["END:VCALENDAR"]

/-- `render_calendar_ics` with explicit keyword arguments: fold every
logical line, join with CRLF, append the trailing CRLF. -/
def render_calendar_ics_with (prodid calname : String) (events : List IcsEvent) : String :=
  String.intercalate "\r\n" ((calendarLines prodid calname events).map fold_ical_line) ++ "\r\n"

/-- `render_calendar_ics` at its default keyword arguments (the only call
site, `app.py`, passes none). -/
def render_calendar_ics (events : List IcsEvent) : String :=
  render_calendar_ics_with defaultProdid defaultCalname events

/-! Section: The record → IcsEvent adapter
(`src/ics.py::calendar_event_to_ics_event`) -/

/-- The fields of a `CalendarEvent` row that the feed path reads
(`src/models.py`; `updated_at`/`created_at` are kept optional because the
code guards them with truthiness checks). -/
structure CalendarEventRow where
  id : String
  ical_uid : Option String := none
  title : Option String := none
  description : Option String := none
  location : Option String := none
  start_at : Option PyDatetime := none
  end_at : Option PyDatetime := none
  is_all_day : Bool := false
  status : Option String := none
  transparency : Option String := none
  html_link : Option String := none
  web_link : Option String := none
  recurrence_rules : Option (List String) := none
  created_at : Option PyDatetime := none
  updated_at : Option PyDatetime := none
deriving DecidableEq, Repr

/-- Python `a or b` for optional strings (`row.ical_uid or str(row.id)`,
`row.html_link or row.web_link`): an empty string is falsy. -/
def pyOrStr (a b : Option String) : Option String :=
  match a with
  | none => b
  | some s => if s = "" then b else some s

/-- `s.removeprefix("RRULE:")`. -/
def stripRruleTag (s : String) : String :=
  if isPrefixOfb "RRULE:".toList s.toList then (s.toList.drop 6).asString else s

/-- The `rrule` field: first stored recurrence rule with any `RRULE:` tag
removed, `None` when the list is absent or empty
(`row.recurrence_rules[0].removeprefix(...) if row.recurrence_rules else
None`). -/
def rowRrule (row : CalendarEventRow) : Option String :=
  match row.recurrence_rules with
  | some (r :: _) => some (stripRruleTag r)
  | _ => none

/-- `dtstamp = row.updated_at or row.created_at or datetime.now(UTC)`
(datetimes are always truthy when present). -/
def rowDtstamp (row : CalendarEventRow) (now : PyDatetime) : PyDatetime :=
  ((row.updated_at).orElse fun _ => row.created_at).getD now

/-- `calendar_event_to_ics_event`, with `datetime.now(UTC)` passed in as
`now`. -/
def calendar_event_to_ics_event (row : CalendarEventRow) (now : PyDatetime) : IcsEvent :=
  let uid := (pyOrStr row.ical_uid (some row.id)).getD row.id
  let dtstamp := rowDtstamp row now
  match row.is_all_day, row.start_at with
  | true, some s =>
    let startD := s.dateOf
    let endD := match row.end_at with
      | some e2 => e2.dateOf
      | none => nextDay startD
    { uid := uid, dtstamp := dtstamp,
      dtstart := .d startD, dtend := some (.d endD),
      summary := row.title, description := row.description,
      location := row.location, status := row.status,
      transp := row.transparency,
      url := pyOrStr row.html_link row.web_link,
      rrule := rowRrule row }
  | _, _ =>
    { uid := uid, dtstamp := dtstamp,
      dtstart := .dt ((row.start_at).getD dtstamp),
      dtend := (row.end_at).map .dt,
      summary := row.title, description := row.description,
      location := row.location, status := row.status,
      transp := row.transparency,
      url := pyOrStr row.html_link row.web_link,
      rrule := rowRrule row }

/-! Section: SHA-256 (`hashlib.sha256(...).hexdigest()`)

FIPS 180-4 SHA-256 over byte lists, with 32-bit words as `Nat` reduced
modulo `2 ^ 32`. -/

/-- Truncate to a 32-bit word. -/
def w32 (n : Nat) : Nat := n % 4294967296

/-- Rotate a 32-bit word right by `n` bits. -/
def rotr32 (n x : Nat) : Nat := w32 ((x >>> n) ||| (x <<< (32 - n)))

/-- SHA-256 `Ch`. -/
def sha256Ch (x y z : Nat) : Nat := (x &&& y) ^^^ ((x ^^^ 4294967295) &&& z)

/-- SHA-256 `Maj`. -/
def sha256Maj (x y z : Nat) : Nat := (x &&& y) ^^^ (x &&& z) ^^^ (y &&& z)

/-- SHA-256 `Σ0`. -/
def bigSigma0 (x : Nat) : Nat := rotr32 2 x ^^^ rotr32 13 x ^^^ rotr32 22 x

/-- SHA-256 `Σ1`. -/
def bigSigma1 (x : Nat) : Nat := rotr32 6 x ^^^ rotr32 11 x ^^^ rotr32 25 x

/-- SHA-256 `σ0`. -/
def smallSigma0 (x : Nat) : Nat := rotr32 7 x ^^^ rotr32 18 x ^^^ (x >>> 3)

/-- SHA-256 `σ1`. -/
def smallSigma1 (x : Nat) : Nat := rotr32 17 x ^^^ rotr32 19 x ^^^ (x >>> 10)

/-- The 64 SHA-256 round constants (FIPS 180-4 §4.2.2, written in
decimal). -/
def sha256K : List Nat :=
  [1116352408, 1899447441, 3049323471, 3921009573, 961987163, 1508970993,
   2453635748, 2870763221, 3624381080, 310598401, 607225278, 1426881987,
   1925078388, 2162078206, 2614888103, 3248222580, 3835390401, 4022224774,
   264347078, 604807628, 770255983, 1249150122, 1555081692, 1996064986,
   2554220882, 2821834349, 2952996808, 3210313671, 3336571891, 3584528711,
   113926993, 338241895, 666307205, 773529912, 1294757372, 1396182291,
   1695183700, 1986661051, 2177026350, 2456956037, 2730485921, 2820302411,
   3259730800, 3345764771, 3516065817, 3600352804, 4094571909, 275423344,
   430227734, 506948616, 659060556, 883997877, 958139571, 1322822218,
   1537002063, 1747873779, 1955562222, 2024104815, 2227730452, 2361852424,
   2428436474, 2756734187, 3204031479, 3329325298]

/-- The SHA-256 initial hash value (FIPS 180-4 §5.3.3, written in
decimal). -/
def sha256H0 : List Nat :=
  [1779033703, 3144134277, 1013904242, 2773480762,
   1359893119, 2600822924, 528734635, 1541459225]

/-- A 64-bit big-endian byte encoding. -/
def be64 (n : Nat) : List Nat :=
  (List.range 8).map fun i => (n >>> (8 * (7 - i))) % 256

/-- SHA-256 message padding: `0x80`, zero bytes to 56 mod 64, then the
bit length as 8 big-endian bytes. -/
def sha256Pad (msg : List Nat) : List Nat :=
  msg ++ [0x80] ++ List.replicate ((119 - msg.length % 64) % 64) 0 ++ be64 (8 * msg.length)

/-- Split a byte list into 64-byte blocks. -/
def toBlocks64 (l : List Nat) : List (List Nat) :=
  if h : l = [] then []
  else l.take 64 :: toBlocks64 (l.drop 64)
termination_by l.length
decreasing_by
  simp only [List.length_drop]
  have hl : 0 < l.length := List.length_pos.mpr h
  omega

/-- The 16 big-endian 32-bit words of one 64-byte block. -/
def blockWords (b : List Nat) : List Nat :=
  (List.range 16).map fun i =>
    b.getD (4 * i) 0 * 16777216 + b.getD (4 * i + 1) 0 * 65536
      + b.getD (4 * i + 2) 0 * 256 + b.getD (4 * i + 3) 0

/-- Extend 16 words to the 64-word message schedule. -/
def msgSchedule (ws : List Nat) : List Nat :=
  (List.range 48).foldl
    (fun w i =>
      w ++ [w32 (smallSigma1 (w.getD (i + 14) 0) + w.getD (i + 9) 0
                  + smallSigma0 (w.getD (i + 1) 0) + w.getD i 0)])
    ws

/-- One SHA-256 compression of a 64-byte block into the running hash. -/
def sha256Compress (H : List Nat) (block : List Nat) : List Nat :=
  let ws := msgSchedule (blockWords block)
  let final := (List.range 64).foldl
    (fun st t =>
      let a := st.getD 0 0
      let b := st.getD 1 0
      let c := st.getD 2 0
      let d := st.getD 3 0
      let e := st.getD 4 0
      let f := st.getD 5 0
      let g := st.getD 6 0
      let h := st.getD 7 0
      let T1 := w32 (h + bigSigma1 e + sha256Ch e f g + sha256K.getD t 0 + ws.getD t 0)
      let T2 := w32 (bigSigma0 a + sha256Maj a b c)
      [w32 (T1 + T2), a, b, c, w32 (d + T1), e, f, g])
    H
  (List.range 8).map fun i => w32 (H.getD i 0 + final.getD i 0)

/-- The eight 32-bit words of the SHA-256 digest of a byte list. -/
def sha256Words (msg : List Nat) : List Nat :=
  (toBlocks64 (sha256Pad msg)).foldl sha256Compress sha256H0

/-- A lowercase hex digit. -/
def hexDigit (n : Nat) : Char :=
  if n < 10 then Char.ofNat (48 + n) else Char.ofNat (87 + n)

/-- A 32-bit word as eight lowercase hex digits. -/
def hex8 (n : Nat) : String :=
  (((List.range 8).map fun i => hexDigit ((n >>> (4 * (7 - i))) % 16))).asString

/-- `hashlib.sha256(bytes).hexdigest()`. -/
def sha256Hex (msg : List Nat) : String :=
  String.join ((sha256Words msg).map hex8)

/-- UTF-8 encoding of one character. -/
def utf8Char (c : Char) : List Nat :=
  let n := c.toNat
  if n < 128 then [n]
  else if n < 2048 then [192 + n / 64, 128 + n % 64]
  else if n < 65536 then [224 + n / 4096, 128 + n / 64 % 64, 128 + n % 64]
  else [240 + n / 262144, 128 + n / 4096 % 64, 128 + n / 64 % 64, 128 + n % 64]

/-- `s.encode("utf-8")` as a byte list. -/
def utf8Bytes (s : String) : List Nat :=
  (s.toList.map utf8Char).flatten

/-! Section: Fingerprint / ETag (`app.py::_public_calendar_ics_impl`) -/

/-- One step of the `for r in rows` loop that tracks the newest
`updated_at`: `if r.updated_at and (newest is None or r.updated_at >
newest): newest = r.updated_at`. -/
def foldNewestStep (acc : Option PyDatetime) (row : CalendarEventRow) : Option PyDatetime :=
  match row.updated_at with
  | none => acc
  | some u =>
    match acc with
    | none => some u
    | some n => if dtLtb n u then some u else acc

/-- The loop over all fetched rows, starting from `newest = None`. -/
def foldNewest (rows : List CalendarEventRow) : Option PyDatetime :=
  rows.foldl foldNewestStep none

/-- The non-null `updated_at` values of the fetched rows. -/
def updatedAts (rows : List CalendarEventRow) : List PyDatetime :=
  rows.filterMap fun r => r.updated_at

/-- `newest = newest or datetime.now(UTC)`. -/
def newestUpdatedAt (rows : List CalendarEventRow) (now : PyDatetime) : PyDatetime :=
  (foldNewest rows).getD now

/-- The feed fingerprint: hex SHA-256 of the UTF-8 bytes of
`"<row_count>:<newest.isoformat()>"`. -/
def computeEtag (rows : List CalendarEventRow) (now : PyDatetime) : String :=
  sha256Hex (utf8Bytes (toString rows.length ++ ":" ++ isoformatUtc (newestUpdatedAt rows now)))

/-! Section: Feed endpoint controller (`app.py::_public_calendar_ics_impl`) -/

/-- Lookup of the first value bound to a key in an association list
(`MultiDict.get`, `dict` lookup, response-header lookup). -/
def argsGet : List (String × String) → String → Option String
  | [], _ => none
  | (k', v) :: rest, k => if k' = k then some v else argsGet rest k

/-- `request.args.to_dict(flat=True)`: one entry per key, keeping the first
value, in first-occurrence order (`seen` accumulates the keys already
emitted). -/
def toFlatDictGo (seen : List String) : List (String × String) → List (String × String)
  | [] => []
  | (k, v) :: rest =>
    if k ∈ seen then toFlatDictGo seen rest
    else (k, v) :: toFlatDictGo (k :: seen) rest

/-- `request.args.to_dict(flat=True)`. -/
def toFlatDict (args : List (String × String)) : List (String × String) :=
  toFlatDictGo [] args

/-- Python `qs["v"] = etag` on a flat dict: replace in place when the key
exists, append otherwise. -/
def setKey : List (String × String) → String → String → List (String × String)
  | [], k, v => [(k, v)]
  | (k', v') :: rest, k, v =>
    if k' = k then (k, v) :: rest else (k', v') :: setKey rest k v

/-- Bytes that `urllib.parse.quote_plus` leaves unencoded: ASCII
alphanumerics and `_ . - ~`. -/
def isUrlSafeByte (b : Nat) : Bool :=
  (48 ≤ b && b ≤ 57) || (65 ≤ b && b ≤ 90) || (97 ≤ b && b ≤ 122)
    || b == 95 || b == 46 || b == 45 || b == 126

/-- `urllib.parse.quote_plus`: UTF-8 bytes, space to `+`, unsafe bytes to
uppercase `%XX`. -/
def quotePlus (s : String) : String :=
  String.join ((utf8Bytes s).map fun b =>
    if isUrlSafeByte b then (Char.ofNat b).toString
    else if b = 32 then "+"
    else "%" ++ (String.mk [hexDigit (b / 16), hexDigit (b % 16)]).toUpper)

/-- `urllib.parse.urlencode` over the flat dict's pairs. -/
def urlencodePairs (pairs : List (String × String)) : String :=
  String.intercalate "&" (pairs.map fun p => quotePlus p.1 ++ "=" ++ quotePlus p.2)

/-- Sunday-first weekday names for `werkzeug.http.http_date`. -/
def weekdayNames : List String :=
  ["Sat", "Sun", "Mon", "Tue", "Wed", "Thu", "Fri"]

/-- Month names for `http_date`. -/
def monthNames : List String :=
  ["Jan", "Feb", "Mar", "Apr", "May", "Jun", "Jul", "Aug", "Sep", "Oct", "Nov", "Dec"]

/-- Zeller's congruence on the Gregorian calendar: 0 = Saturday. -/
def zellerWeekday (y m d : Nat) : Nat :=
  let yy := if m ≤ 2 then y - 1 else y
  let mm := if m ≤ 2 then m + 12 else m
  let K := yy % 100
  let J := yy / 100
  (d + (13 * (mm + 1)) / 5 + K + K / 4 + J / 4 + 5 * J) % 7

/-- `werkzeug.http.http_date(newest.timestamp())`: the RFC 1123 GMT date of
the UTC instant (sub-second precision is dropped). -/
def httpDate (t : PyDatetime) : String :=
  weekdayNames.getD (zellerWeekday t.year t.month t.day) "Mon" ++ ", "
    ++ pad2 t.day ++ " " ++ monthNames.getD (t.month - 1) "Jan" ++ " " ++ pad4 t.year ++ " "
    ++ pad2 t.hour ++ ":" ++ pad2 t.minute ++ ":" ++ pad2 t.second ++ " GMT"

/-- The request data `_public_calendar_ics_impl` consumes: the query
parameters in order, the `If-None-Match` header, and `request.base_url`
(scheme://host/path, no query string). -/
structure IcsRequest where
  args : List (String × String)
  ifNoneMatch : Option String := none
  baseUrl : String := "http://localhost/calendar.ics"
deriving DecidableEq, Repr

/-- The observable response: status, body and headers.  (The HTML body that
the framework attaches to a 302 is framework plumbing and is modelled as
empty.) -/
structure HttpResponse where
  status : Nat
  body : String
  headers : List (String × String)
deriving DecidableEq, Repr

/-- `request.args.get("limit", default=2000, type=int)` followed by
`limit = max(1, min(limit, 10000))`.  Flask's `type=int` falls back to the
default both when the parameter is absent and when `int(...)` fails. -/
def clampLimit (n : Int) : Int := max 1 (min n 10000)

/-- Python `int(str)` on the usual decimal forms: surrounding ASCII
whitespace, an optional sign, digits with optional single underscore
separators. -/
def pyIntDigits (acc : Nat) : List Char → Option Nat
  | [] => some acc
  | '_' :: c :: rest =>
    if c.isDigit then pyIntDigits (acc * 10 + (c.toNat - 48)) rest else none
  | c :: rest =>
    if c.isDigit then pyIntDigits (acc * 10 + (c.toNat - 48)) rest else none

/-- The digit block of `int(str)`: must start with a digit. -/
def pyIntNat : List Char → Option Nat
  | [] => none
  | c :: rest => if c.isDigit then pyIntDigits (c.toNat - 48) rest else none

/-- ASCII whitespace stripped by `int(str)`. -/
def isPyWs (c : Char) : Bool :=
  c == ' ' || c == '\t' || c == '\n' || c == '\r' || c == '\x0b' || c == '\x0c'

/-- Python `int(str)`. -/
def pyInt (s : String) : Option Int :=
  let t := ((s.toList.dropWhile isPyWs).reverse.dropWhile isPyWs).reverse
  match t with
  | '+' :: ds => (pyIntNat ds).map fun n => (n : Int)
  | '-' :: ds => (pyIntNat ds).map fun n => -(n : Int)
  | ds => (pyIntNat ds).map fun n => (n : Int)

/-- The parsed `limit` query parameter before clamping (default 2000). -/
def requestLimit (args : List (String × String)) : Int :=
  ((argsGet args "limit").bind pyInt).getD 2000

/-- The clamped limit actually handed to the persistence query. -/
def effectiveLimit (args : List (String × String)) : Int :=
  clampLimit (requestLimit args)

/-- The cache-control header triple shared by the 302 and 200 branches. -/
def noStoreHeaders : List (String × String) :=
  [("Cache-Control", "no-store, max-age=0, must-revalidate"),
   ("Pragma", "no-cache"), ("Expires", "0")]

/-- `_public_calendar_ics_impl` after the rows are fetched: fingerprint,
canonical-path cache-busting redirect, conditional 304, else the rendered
document with validator headers.  `rows` is the ordered list persistence
returned for `effectiveLimit req.args`; `now` is `datetime.now(UTC)`. -/
def public_calendar_ics_impl (req : IcsRequest) (canonical : Bool)
    (rows : List CalendarEventRow) (now : PyDatetime) : HttpResponse :=
  let etag := computeEtag rows now
  if canonical ∧ argsGet req.args "v" ≠ some etag then
    { status := 302, body := "",
      headers := ("Location",
          req.baseUrl ++ "?" ++ urlencodePairs (setKey (toFlatDict req.args) "v" etag))
        :: noStoreHeaders }
  else if req.ifNoneMatch = some etag then
    { status := 304, body := "", headers := [] }
  else
    { status := 200,
      body := render_calendar_ics (rows.map fun r => calendar_event_to_ics_event r now),
      headers := ("Content-Type", "text/calendar; charset=utf-8")
        :: noStoreHeaders
        ++ [("Content-Disposition", "inline; filename=\"PossibleNow Events.ics\""),
            ("ETag", etag),
            ("Last-Modified", httpDate (newestUpdatedAt rows now))] }

/-! Section: Helper lemmas: escaping as a per-character expansion -/

/-- Per-character expansion (`flatMap` specialised to characters). -/
def charExpand (f : Char → List Char) : List Char → List Char
  | [] => []
  | a :: rest => f a ++ charExpand f rest

/-- The per-character form of the full escape chain on carriage-return-free
input: backslash, semicolon, comma and LF each become a two-character escape
sequence; everything else is untouched. -/
def escCore (a : Char) : List Char :=
  if a = '\\' then ['\\', '\\']
  else if a = ';' then ['\\', ';']
  else if a = ',' then ['\\', ',']
  else if a = '\n' then ['\\', 'n']
  else [a]

theorem charExpand_append (f : Char → List Char) (xs ys : List Char) :
    charExpand f (xs ++ ys) = charExpand f xs ++ charExpand f ys := by
  induction xs with
  | nil => rfl
  | cons a rest ih => simp [charExpand, ih]

theorem mem_charExpand {b : Char} {f : Char → List Char} {s : List Char} :
    b ∈ charExpand f s ↔ ∃ a ∈ s, b ∈ f a := by
  induction s with
  | nil => simp [charExpand]
  | cons a rest ih => simp [charExpand, ih, or_and_right, exists_or]

theorem charExpand_comp (f g : Char → List Char) (s : List Char) :
    charExpand g (charExpand f s) = charExpand (fun a => charExpand g (f a)) s := by
  induction s with
  | nil => rfl
  | cons a rest ih => simp [charExpand, charExpand_append, ih]

theorem charExpand_congr (f g : Char → List Char) (h : ∀ a, f a = g a) (s : List Char) :
    charExpand f s = charExpand g s := by
  induction s with
  | nil => rfl
  | cons a rest ih => simp [charExpand, ih, h a]

/-- A single-character `str.replace` is a per-character expansion. -/
theorem replaceList_singleton (c : Char) (r : List Char) (s : List Char) :
    replaceList [c] r s = charExpand (fun a => if a = c then r else [a]) s := by
  induction s with
  | nil => rfl
  | cons a rest ih =>
    by_cases h : a = c
    · subst h
      simp [replaceList, replaceAux, isPrefixOfb, charExpand] at ih ⊢
      exact ih
    · have hc : (c == a) = false := by
        simp [beq_iff_eq]
        exact fun he => h he.symm
      simp [replaceList, replaceAux, isPrefixOfb, hc, charExpand, h] at ih ⊢
      exact ih

/-- `str.replace` is the identity when the pattern's first character never
occurs in the subject. -/
theorem replaceList_not_mem (p0 : Char) (ps repl : List Char) (s : List Char)
    (h : p0 ∉ s) : replaceList (p0 :: ps) repl s = s := by
  induction s with
  | nil => rfl
  | cons a rest ih =>
    have ha : a ≠ p0 := fun he => h (he ▸ List.mem_cons_self a rest)
    have hp : (p0 == a) = false := by
      simp [beq_iff_eq]
      exact fun he => ha he.symm
    have hrest : p0 ∉ rest := fun hm => h (List.mem_cons_of_mem a hm)
    simp [replaceList, replaceAux, isPrefixOfb, hp] at ih ⊢
    exact ih hrest

/-- On carriage-return-free input the whole escape chain collapses to the
per-character expansion `escCore`. -/
theorem escapeChars_eq_core (s : List Char) (h : '\r' ∉ s) :
    escapeChars s = charExpand escCore s := by
  have e1 := replaceList_singleton '\\' ['\\', '\\'] s
  have hs1 : '\r' ∉ replaceList ['\\'] ['\\', '\\'] s := by
    rw [e1]
    intro hm
    rcases mem_charExpand.mp hm with ⟨a, ha, hb⟩
    by_cases hc : a = '\\' <;> simp [hc] at hb <;> exact h (hb ▸ ha)
  have e2 := replaceList_singleton ';' ['\\', ';'] (replaceList ['\\'] ['\\', '\\'] s)
  have hs2 : '\r' ∉ replaceList [';'] ['\\', ';'] (replaceList ['\\'] ['\\', '\\'] s) := by
    rw [e2]
    intro hm
    rcases mem_charExpand.mp hm with ⟨a, ha, hb⟩
    by_cases hc : a = ';' <;> simp [hc] at hb <;> exact hs1 (hb ▸ ha)
  have e3 := replaceList_singleton ','  ['\\', ','] (replaceList [';'] ['\\', ';']
    (replaceList ['\\'] ['\\', '\\'] s))
  have hs3 : '\r' ∉ replaceList [','] ['\\', ','] (replaceList [';'] ['\\', ';']
      (replaceList ['\\'] ['\\', '\\'] s)) := by
    rw [e3]
    intro hm
    rcases mem_charExpand.mp hm with ⟨a, ha, hb⟩
    by_cases hc : a = ',' <;> simp [hc] at hb <;> exact hs2 (hb ▸ ha)
  unfold escapeChars
  rw [replaceList_not_mem '\r' ['\n'] ['\\', 'n'] _ hs3]
  have e4 := replaceList_singleton '\n' ['\\', 'n'] (replaceList [','] ['\\', ',']
    (replaceList [';'] ['\\', ';'] (replaceList ['\\'] ['\\', '\\'] s)))
  have hs4 : '\r' ∉ replaceList ['\n'] ['\\', 'n'] (replaceList [','] ['\\', ',']
      (replaceList [';'] ['\\', ';'] (replaceList ['\\'] ['\\', '\\'] s))) := by
    rw [e4]
    intro hm
    rcases mem_charExpand.mp hm with ⟨a, ha, hb⟩
    by_cases hc : a = '\n' <;> simp [hc] at hb <;> exact hs3 (hb ▸ ha)
  rw [replaceList_not_mem '\r' [] ['\\', 'n'] _ hs4]
  rw [e4, e3, e2, e1, charExpand_comp, charExpand_comp, charExpand_comp]
  refine charExpand_congr _ _ (fun a => ?_) s
  by_cases h1 : a = '\\'
  · subst h1; decide
  · by_cases h2 : a = ';'
    · subst h2; decide
    · by_cases h3 : a = ','
      · subst h3; decide
      · by_cases h4 : a = '\n'
        · subst h4; decide
        · simp [charExpand, escCore, h1, h2, h3, h4]

theorem unescape_cons_ne (a : Char) (t : List Char) (h : a ≠ '\\') :
    unescapeRfc5545 (a :: t) = a :: unescapeRfc5545 t := by
  cases t with
  | nil => rfl
  | cons b t' => simp [unescapeRfc5545, h]

theorem unescape_esc_pair (b : Char) (t : List Char)
    (h : b = '\\' ∨ b = ';' ∨ b = ',' ∨ b = 'n') :
    unescapeRfc5545 ('\\' :: b :: t) = (if b = 'n' then '\n' else b) :: unescapeRfc5545 t := by
  simp [unescapeRfc5545, h]

/-- Reverse-unescaping inverts the per-character expansion. -/
theorem unescape_charExpand (s : List Char) :
    unescapeRfc5545 (charExpand escCore s) = s := by
  induction s with
  | nil => rfl
  | cons a rest ih =>
    by_cases h1 : a = '\\'
    · subst h1
      simpa [charExpand, escCore, unescape_esc_pair '\\' _ (Or.inl rfl)] using ih
    · by_cases h2 : a = ';'
      · subst h2
        simpa [charExpand, escCore, unescape_esc_pair ';' _ (Or.inr (Or.inl rfl))] using ih
      · by_cases h3 : a = ','
        · subst h3
          simpa [charExpand, escCore,
            unescape_esc_pair ',' _ (Or.inr (Or.inr (Or.inl rfl)))] using ih
        · by_cases h4 : a = '\n'
          · subst h4
            simpa [charExpand, escCore,
              unescape_esc_pair 'n' _ (Or.inr (Or.inr (Or.inr rfl)))] using ih
          · have : escCore a = [a] := by simp [escCore, h1, h2, h3, h4]
            simpa [charExpand, this, unescape_cons_ne a _ h1] using ih

/-! Section: Helper lemmas: line folding -/

theorem foldChunks_eq (line : List Char) :
    foldChunks line =
      if line.length ≤ 75 then [line]
      else line.take 75 :: foldChunks (' ' :: line.drop 75) := by
  rw [foldChunks]

/-- Rejoining the continuation chunks of `' ' :: t` gives back `t`
(the inserted leading space of each continuation is dropped). -/
theorem unfoldCont_foldChunks (n : Nat) :
    ∀ t : List Char, t.length ≤ n → unfoldCont (foldChunks (' ' :: t)) = t := by
  induction n with
  | zero =>
    intro t ht
    have : t = [] := List.length_eq_zero.mp (Nat.le_zero.mp ht)
    subst this
    rw [foldChunks_eq]
    simp [unfoldCont]
  | succ n ih =>
    intro t ht
    rw [foldChunks_eq]
    by_cases h : (' ' :: t).length ≤ 75
    · rw [if_pos h]
      simp [unfoldCont]
    · rw [if_neg h]
      have htake : (' ' :: t).take 75 = ' ' :: t.take 74 :=
        List.take_succ_cons ..
      have hdrop : (' ' :: t).drop 75 = t.drop 74 :=
        List.drop_succ_cons ..
      rw [htake, hdrop]
      simp only [unfoldCont]
      have hrec : (t.drop 74).length ≤ n := by
        simp [List.length_drop]
        omega
      rw [ih (t.drop 74) hrec]
      simpa using List.take_append_drop 74 t

/-- Rejoining all folded chunks reconstructs the original logical line. -/
theorem unfoldChunks_foldChunks (line : List Char) :
    unfoldChunks (foldChunks line) = line := by
  rw [foldChunks_eq]
  by_cases h : line.length ≤ 75
  · simp [h, unfoldChunks, unfoldCont]
  · simp only [h, if_false]
    rw [unfoldChunks, unfoldCont_foldChunks (line.drop 75).length (line.drop 75) le_rfl]
    exact List.take_append_drop 75 line

/-- Every physical line the folder emits has at most 75 characters. -/
theorem foldChunks_length_le (n : Nat) :
    ∀ line : List Char, line.length ≤ n →
      ∀ c ∈ foldChunks line, c.length ≤ 75 := by
  induction n with
  | zero =>
    intro line hl c hc
    have : line = [] := List.length_eq_zero.mp (Nat.le_zero.mp hl)
    subst this
    rw [foldChunks_eq] at hc
    simp at hc
    simp [hc]
  | succ n ih =>
    intro line hl c hc
    rw [foldChunks_eq] at hc
    by_cases h : line.length ≤ 75
    · simp [h] at hc
      simpa [hc] using h
    · simp only [h, if_false, List.mem_cons] at hc
      rcases hc with hc | hc
      · subst hc
        simp [List.length_take]
      · have hrec : (' ' :: line.drop 75).length ≤ n := by
          simp [List.length_cons, List.length_drop]
          omega
        exact ih (' ' :: line.drop 75) hrec c hc

/-! Section: Helper lemmas: the lexicographic datetime order and the newest fold -/

theorem natListLtb_irrefl : ∀ l : List Nat, natListLtb l l = false := by
  intro l
  induction l with
  | nil => rfl
  | cons x xs ih => simp [natListLtb, ih]

theorem natListLtb_trans :
    ∀ (a b c : List Nat), natListLtb a b = true → natListLtb b c = true →
      natListLtb a c = true := by
  intro a
  induction a with
  | nil =>
    intro b c hab hbc
    cases b with
    | nil => simp [natListLtb] at hab
    | cons y ys =>
      cases c with
      | nil => simp [natListLtb] at hbc
      | cons z zs => simp [natListLtb]
  | cons x xs ih =>
    intro b c hab hbc
    cases b with
    | nil => simp [natListLtb] at hab
    | cons y ys =>
      cases c with
      | nil => simp [natListLtb] at hbc
      | cons z zs =>
        simp only [natListLtb] at hab hbc ⊢
        split_ifs at hab hbc ⊢ <;>
          first
            | rfl
            | omega
            | (exact ih ys zs hab hbc)
            | simp_all

theorem natListLtb_not_trans :
    ∀ (a b c : List Nat), natListLtb a b = false → natListLtb b c = false →
      natListLtb a c = false := by
  intro a
  induction a with
  | nil =>
    intro b c hab hbc
    cases b with
    | cons y ys => simp [natListLtb] at hab
    | nil =>
      cases c with
      | nil => rfl
      | cons z zs => simp [natListLtb] at hbc
  | cons x xs ih =>
    intro b c hab hbc
    cases c with
    | nil => cases b <;> simp [natListLtb]
    | cons z zs =>
      cases b with
      | nil => simp [natListLtb] at hbc
      | cons y ys =>
        simp only [natListLtb] at hab hbc ⊢
        split_ifs at hab hbc ⊢ <;>
          first
            | rfl
            | omega
            | (exact ih ys zs hab hbc)
            | simp_all

theorem dtLtb_irrefl (t : PyDatetime) : dtLtb t t = false :=
  natListLtb_irrefl (dtKey t)

theorem dtLtb_trans {a b c : PyDatetime} (h1 : dtLtb a b = true)
    (h2 : dtLtb b c = true) : dtLtb a c = true :=
  natListLtb_trans (dtKey a) (dtKey b) (dtKey c) h1 h2

theorem dtLtb_not_trans {a b c : PyDatetime} (h1 : dtLtb a b = false)
    (h2 : dtLtb b c = false) : dtLtb a c = false :=
  natListLtb_not_trans (dtKey a) (dtKey b) (dtKey c) h1 h2

theorem updatedAts_cons_none {r : CalendarEventRow} {rest : List CalendarEventRow}
    (hu : r.updated_at = none) : updatedAts (r :: rest) = updatedAts rest := by
  simp [updatedAts, List.filterMap_cons, hu]

theorem updatedAts_cons_some {r : CalendarEventRow} {rest : List CalendarEventRow}
    {u : PyDatetime} (hu : r.updated_at = some u) :
    updatedAts (r :: rest) = u :: updatedAts rest := by
  simp [updatedAts, List.filterMap_cons, hu]

/-- Invariant of the newest-`updated_at` loop once the accumulator holds a
value: the result is drawn from the accumulator or the remaining rows and no
scanned value exceeds it. -/
theorem foldNewest_go_spec :
    ∀ (rows : List CalendarEventRow) (n : PyDatetime),
      ∃ m, rows.foldl foldNewestStep (some n) = some m
        ∧ (m = n ∨ m ∈ updatedAts rows)
        ∧ dtLtb m n = false
        ∧ ∀ v ∈ updatedAts rows, dtLtb m v = false := by
  intro rows
  induction rows with
  | nil =>
    intro n
    exact ⟨n, rfl, Or.inl rfl, dtLtb_irrefl n, by simp [updatedAts]⟩
  | cons r rest ih =>
    intro n
    cases hu : r.updated_at with
    | none =>
      rcases ih n with ⟨m, heq, hmem, hmn, hall⟩
      refine ⟨m, ?_, ?_, hmn, ?_⟩
      · simpa [List.foldl_cons, foldNewestStep, hu] using heq
      · rw [updatedAts_cons_none hu]; exact hmem
      · rw [updatedAts_cons_none hu]; exact hall
    | some u =>
      by_cases hlt : dtLtb n u = true
      · rcases ih u with ⟨m, heq, hmem, hmu, hall⟩
        refine ⟨m, ?_, ?_, ?_, ?_⟩
        · simpa [List.foldl_cons, foldNewestStep, hu, hlt] using heq
        · rw [updatedAts_cons_some hu]
          rcases hmem with hmem | hmem
          · exact Or.inr (by simp [hmem])
          · exact Or.inr (List.mem_cons_of_mem u hmem)
        · by_cases hmn : dtLtb m n = true
          · exact absurd (dtLtb_trans hmn hlt) (by simp [hmu])
          · simpa using hmn
        · intro v hv
          rw [updatedAts_cons_some hu] at hv
          rcases List.mem_cons.mp hv with hv | hv
          · exact hv ▸ hmu
          · exact hall v hv
      · have hlt' : dtLtb n u = false := by simpa using hlt
        rcases ih n with ⟨m, heq, hmem, hmn, hall⟩
        refine ⟨m, ?_, ?_, hmn, ?_⟩
        · simpa [List.foldl_cons, foldNewestStep, hu, hlt'] using heq
        · rw [updatedAts_cons_some hu]
          rcases hmem with hmem | hmem
          · exact Or.inl hmem
          · exact Or.inr (List.mem_cons_of_mem u hmem)
        · intro v hv
          rw [updatedAts_cons_some hu] at hv
          rcases List.mem_cons.mp hv with hv | hv
          · exact hv ▸ dtLtb_not_trans hmn hlt'
          · exact hall v hv

/-- When the loop produces a value, it is one of the rows' `updated_at`
values and none of them is strictly newer: the loop computes the maximum. -/
theorem foldNewest_spec_some :
    ∀ (rows : List CalendarEventRow) (m : PyDatetime),
      foldNewest rows = some m →
        m ∈ updatedAts rows ∧ ∀ v ∈ updatedAts rows, dtLtb m v = false := by
  intro rows
  induction rows with
  | nil => intro m hm; simp [foldNewest] at hm
  | cons r rest ih =>
    intro m hm
    cases hu : r.updated_at with
    | none =>
      have hm' : foldNewest rest = some m := by
        simpa [foldNewest, List.foldl_cons, foldNewestStep, hu] using hm
      rcases ih m hm' with ⟨hmem, hall⟩
      rw [updatedAts_cons_none hu]
      exact ⟨hmem, hall⟩
    | some u =>
      rcases foldNewest_go_spec rest u with ⟨m', heq, hmem, hmu, hall⟩
      have hm' : m' = m := by
        have : foldNewest (r :: rest) = some m' := by
          simpa [foldNewest, List.foldl_cons, foldNewestStep, hu] using heq
        have := this.symm.trans hm
        simpa using this
      subst hm'
      rw [updatedAts_cons_some hu]
      constructor
      · rcases hmem with hmem | hmem
        · simp [hmem]
        · exact List.mem_cons_of_mem u hmem
      · intro v hv
        rcases List.mem_cons.mp hv with hv | hv
        · exact hv ▸ hmu
        · exact hall v hv

/-- When the loop never sees a value, there was none to see. -/
theorem foldNewest_spec_none :
    ∀ rows : List CalendarEventRow, foldNewest rows = none → updatedAts rows = [] := by
  intro rows
  induction rows with
  | nil => intro _; simp [updatedAts]
  | cons r rest ih =>
    intro hm
    cases hu : r.updated_at with
    | none =>
      have hm' : foldNewest rest = none := by
        simpa [foldNewest, List.foldl_cons, foldNewestStep, hu] using hm
      rw [updatedAts_cons_none hu]
      exact ih hm'
    | some u =>
      rcases foldNewest_go_spec rest u with ⟨m', heq, _, _, _⟩
      have : foldNewest (r :: rest) = some m' := by
        simpa [foldNewest, List.foldl_cons, foldNewestStep, hu] using heq
      rw [this] at hm
      exact absurd hm (by simp)

/-! Section: Helper lemmas: query-string dictionaries -/

theorem toFlatDictGo_lookup :
    ∀ (args : List (String × String)) (seen : List String) (k : String),
      argsGet (toFlatDictGo seen args) k = if k ∈ seen then none else argsGet args k := by
  intro args
  induction args with
  | nil => intro seen k; by_cases h : k ∈ seen <;> simp [toFlatDictGo, argsGet, h]
  | cons p rest ih =>
    intro seen k
    obtain ⟨k', v⟩ := p
    by_cases hk' : k' ∈ seen
    · rw [show toFlatDictGo seen ((k', v) :: rest) = toFlatDictGo seen rest by
        simp [toFlatDictGo, hk'], ih]
      by_cases hk : k ∈ seen
      · simp [hk]
      · have hne : k' ≠ k := fun he => hk (he ▸ hk')
        simp [hk, argsGet, hne]
    · rw [show toFlatDictGo seen ((k', v) :: rest) = (k', v) :: toFlatDictGo (k' :: seen) rest by
        simp [toFlatDictGo, hk']]
      by_cases he : k' = k
      · subst he
        have hk : k' ∉ seen := hk'
        simp [argsGet, hk]
      · simp only [argsGet, he, if_false]
        rw [ih]
        by_cases hk : k ∈ seen
        · simp [hk, List.mem_cons, he]
        · have : k ∉ k' :: seen := by
            simp [List.mem_cons, hk]
            exact fun hx => he hx.symm
          simp [hk, this]

/-- `to_dict(flat=True)` preserves first-value lookups. -/
theorem argsGet_toFlatDict (args : List (String × String)) (k : String) :
    argsGet (toFlatDict args) k = argsGet args k := by
  simpa using toFlatDictGo_lookup args [] k

/-- `qs[k] = v` makes `k` map to `v`. -/
theorem argsGet_setKey_self :
    ∀ (d : List (String × String)) (k v : String), argsGet (setKey d k v) k = some v := by
  intro d
  induction d with
  | nil => intro k v; simp [setKey, argsGet]
  | cons p rest ih =>
    intro k v
    obtain ⟨k', v'⟩ := p
    by_cases he : k' = k
    · subst he; simp [setKey, argsGet]
    · simp [setKey, argsGet, he, ih]

/-- `qs[k] = v` leaves every other key's binding unchanged. -/
theorem argsGet_setKey_other :
    ∀ (d : List (String × String)) (k v k' : String), k' ≠ k →
      argsGet (setKey d k v) k' = argsGet d k' := by
  intro d
  induction d with
  | nil =>
    intro k v k' h
    simp [setKey, argsGet]
    exact fun hx => h hx.symm
  | cons p rest ih =>
    intro k v k' h
    obtain ⟨k0, v0⟩ := p
    by_cases he : k0 = k
    · subst he
      have : k0 ≠ k' := fun hx => h hx.symm
      simp [setKey, argsGet, this]
    · by_cases he' : k0 = k'
      · subst he'; simp [setKey, argsGet, he]
      · simp [setKey, argsGet, he, he', ih _ _ _ h]

/-! Section: The claims -/

/-- C1 (counterexample): the escaping round-trip fails as stated.  The text
`a CR LF b` contains a newline, yet escaping maps the CRLF pair to the
two-character sequence backslash-n, which RFC 5545 reverse-unescaping turns
into a single LF — not the original CRLF. -/
theorem c1_escape_roundtrip_counterexample :
    ('\n' ∈ ['a', '\r', '\n', 'b'])
      ∧ unescapeRfc5545 (escapeChars ['a', '\r', '\n', 'b']) ≠ ['a', '\r', '\n', 'b'] := by
  decide

/-- C1 (amended): for every text containing no carriage return, applying
`_escape_ical_text` and then RFC 5545 reverse-unescaping yields the original
text.  (CR and CRLF are normalised to the escape sequence backslash-n, which
unescapes to LF, so texts containing CR do not round-trip.) -/
theorem c1_escape_roundtrip_noCR (s : List Char) (h : '\r' ∉ s) :
    unescapeRfc5545 (escapeChars s) = s := by
  rw [escapeChars_eq_core s h]
  exact unescape_charExpand s

theorem c1_escape_roundtrip_noCR_witness :
    unescapeRfc5545 (escapeChars ['a', '\\', 'x', ';', ',', '\n', 'b'])
      = ['a', '\\', 'x', ';', ',', '\n', 'b'] :=
  c1_escape_roundtrip_noCR ['a', '\\', 'x', ';', ',', '\n', 'b'] (by decide)

/-- C2: every physical line `_fold_ical_line` produces is at most 75
characters long, and rejoining the folded output — dropping the inserted
leading space of each continuation line and concatenating — reconstructs the
original unfolded line exactly. -/
theorem c2_fold_invariant (line : List Char) :
    ((foldChunks line).all fun c => c.length ≤ 75) = true
      ∧ unfoldChunks (foldChunks line) = line := by
  constructor
  · rw [List.all_eq_true]
    intro c hc
    exact decide_eq_true (foldChunks_length_le line.length line le_rfl c hc)
  · exact unfoldChunks_foldChunks line

/-- C3 (code evaluated at the failing input): a record whose stored rule is
`RRULE:FREQ=DAILY;COUNT=3` reaches the renderer as `FREQ=DAILY;COUNT=3`,
but the renderer passes the value through `_escape_ical_text`, so the
emitted line is `RRULE:FREQ=DAILY\;COUNT=3` — not the claimed
`RRULE:` + value with the value unchanged. -/
theorem c3_rrule_escaped_not_verbatim :
    (calendar_event_to_ics_event
        { id := "r1", recurrence_rules := some ["RRULE:FREQ=DAILY;COUNT=3"],
          start_at := some ⟨2025, 12, 15, 10, 0, 0, 0⟩,
          updated_at := some ⟨2025, 12, 15, 9, 0, 0, 0⟩ }
        ⟨2025, 12, 15, 12, 0, 0, 0⟩).rrule = some "FREQ=DAILY;COUNT=3"
      ∧ rruleLines (calendar_event_to_ics_event
          { id := "r1", recurrence_rules := some ["RRULE:FREQ=DAILY;COUNT=3"],
            start_at := some ⟨2025, 12, 15, 10, 0, 0, 0⟩,
            updated_at := some ⟨2025, 12, 15, 9, 0, 0, 0⟩ }
          ⟨2025, 12, 15, 12, 0, 0, 0⟩) = ["RRULE:FREQ=DAILY\\;COUNT=3"]
      ∧ "RRULE:FREQ=DAILY\\;COUNT=3" ≠ "RRULE:" ++ "FREQ=DAILY;COUNT=3" := by
  decide

/-- C4: for every all-day record with a start instant and no end instant,
the adapter's exclusive end date is the start instant's calendar date plus
one day, and the event block contains the corresponding
`DTEND;VALUE=DATE:` line. -/
theorem c4_allday_exclusive_end (row : CalendarEventRow) (now s : PyDatetime)
    (had : row.is_all_day = true) (hs : row.start_at = some s)
    (he : row.end_at = none) :
    (calendar_event_to_ics_event row now).dtend = some (.d (nextDay s.dateOf))
      ∧ ("DTEND;VALUE=DATE:" ++ fmt_date (nextDay s.dateOf))
          ∈ eventLines (calendar_event_to_ics_event row now) := by
  simp [calendar_event_to_ics_event, had, hs, he, eventLines, dtendLines]

theorem c4_allday_exclusive_end_witness :
    "DTEND;VALUE=DATE:20251216"
      ∈ eventLines (calendar_event_to_ics_event
          { id := "r1", is_all_day := true,
            start_at := some ⟨2025, 12, 15, 10, 0, 0, 0⟩,
            updated_at := some ⟨2025, 12, 15, 9, 0, 0, 0⟩ }
          ⟨2025, 12, 15, 12, 0, 0, 0⟩) := by
  have h := c4_allday_exclusive_end
    { id := "r1", is_all_day := true,
      start_at := some ⟨2025, 12, 15, 10, 0, 0, 0⟩,
      updated_at := some ⟨2025, 12, 15, 9, 0, 0, 0⟩ }
    ⟨2025, 12, 15, 12, 0, 0, 0⟩ ⟨2025, 12, 15, 10, 0, 0, 0⟩ rfl rfl rfl
  have he : ("DTEND;VALUE=DATE:"
      ++ fmt_date (nextDay (PyDatetime.dateOf ⟨2025, 12, 15, 10, 0, 0, 0⟩)))
      = "DTEND;VALUE=DATE:20251216" := by decide
  exact he ▸ h.2

/-- C5: the feed fingerprint is the hex SHA-256 of the UTF-8 bytes of
`"<row_count>:<newest_updated_at_iso8601>"`; the loop value is the maximum
of the rows' `updated_at` values; it defaults to `now` for an empty fetch;
and two fetches agreeing on row count and newest `updated_at` share the
ETag. -/
theorem c5_etag_fingerprint :
    (∀ (rows : List CalendarEventRow) (now : PyDatetime),
        computeEtag rows now
          = sha256Hex (utf8Bytes (toString rows.length ++ ":"
              ++ isoformatUtc (newestUpdatedAt rows now))))
      ∧ (∀ (rows : List CalendarEventRow) (m : PyDatetime),
          foldNewest rows = some m →
            m ∈ updatedAts rows ∧ ∀ v ∈ updatedAts rows, dtLtb m v = false)
      ∧ (∀ now : PyDatetime, newestUpdatedAt [] now = now)
      ∧ (∀ (rows1 rows2 : List CalendarEventRow) (now1 now2 : PyDatetime),
          rows1.length = rows2.length →
          newestUpdatedAt rows1 now1 = newestUpdatedAt rows2 now2 →
          computeEtag rows1 now1 = computeEtag rows2 now2) := by
  refine ⟨fun rows now => rfl, foldNewest_spec_some, fun now => rfl, ?_⟩
  intro rows1 rows2 now1 now2 hlen hmax
  unfold computeEtag
  rw [hlen, hmax]

theorem c5_etag_fingerprint_witness :
    computeEtag
        [{ id := "a", title := some "one",
           updated_at := some ⟨2025, 12, 15, 9, 0, 0, 0⟩ }]
        ⟨2025, 12, 15, 12, 0, 0, 0⟩
      = computeEtag
        [{ id := "b", title := some "two",
           updated_at := some ⟨2025, 12, 15, 9, 0, 0, 0⟩ }]
        ⟨2025, 12, 15, 13, 0, 0, 0⟩
      ∧ (⟨2025, 12, 15, 9, 0, 0, 0⟩ : PyDatetime)
          ∈ updatedAts [{ id := "a", title := some "one",
                          updated_at := some ⟨2025, 12, 15, 9, 0, 0, 0⟩ }] :=
  ⟨c5_etag_fingerprint.2.2.2 _ _ _ _ rfl (by decide),
   (c5_etag_fingerprint.2.1 _ _ (by decide)).1⟩

/-- C6: on the canonical path, a request whose `v` query parameter is
absent or differs from the fingerprint is answered with a 302 (never a 304,
regardless of `If-None-Match`, because this branch precedes the conditional
check) whose `Location` is the canonical base URL with `v=<fingerprint>`
merged into the flattened query string; `v` maps to the fingerprint there,
every other parameter keeps its (first) value, and the response carries the
`no-store` cache-control directives. -/
theorem c6_canonical_redirect (req : IcsRequest) (rows : List CalendarEventRow)
    (now : PyDatetime)
    (h : argsGet req.args "v" ≠ some (computeEtag rows now)) :
    (public_calendar_ics_impl req true rows now).status = 302
      ∧ (public_calendar_ics_impl req true rows now).status ≠ 304
      ∧ argsGet (public_calendar_ics_impl req true rows now).headers "Location"
          = some (req.baseUrl ++ "?"
              ++ urlencodePairs (setKey (toFlatDict req.args) "v" (computeEtag rows now)))
      ∧ argsGet (public_calendar_ics_impl req true rows now).headers "Cache-Control"
          = some "no-store, max-age=0, must-revalidate"
      ∧ argsGet (setKey (toFlatDict req.args) "v" (computeEtag rows now)) "v"
          = some (computeEtag rows now)
      ∧ ∀ k, k ≠ "v" →
          argsGet (setKey (toFlatDict req.args) "v" (computeEtag rows now)) k
            = argsGet req.args k := by
  have hrep : public_calendar_ics_impl req true rows now
      = { status := 302, body := "",
          headers := ("Location",
              req.baseUrl ++ "?"
                ++ urlencodePairs (setKey (toFlatDict req.args) "v" (computeEtag rows now)))
            :: noStoreHeaders } := by
    simp [public_calendar_ics_impl, h]
  refine ⟨?_, ?_, ?_, ?_, argsGet_setKey_self _ _ _, ?_⟩
  · rw [hrep]
  · rw [hrep]
    simp
  · rw [hrep]
    simp [argsGet, noStoreHeaders]
  · rw [hrep]
    simp [argsGet, noStoreHeaders]
  · intro k hk
    rw [argsGet_setKey_other _ _ _ _ hk, argsGet_toFlatDict]

theorem c6_canonical_redirect_witness :
    (public_calendar_ics_impl
        { args := [("limit", "5")], ifNoneMatch := none,
          baseUrl := "http://localhost/calendar.ics" }
        true [] ⟨2025, 12, 15, 12, 0, 0, 0⟩).status = 302
      ∧ argsGet
          (setKey (toFlatDict [("limit", "5")]) "v"
            (computeEtag [] ⟨2025, 12, 15, 12, 0, 0, 0⟩)) "limit"
          = argsGet [("limit", "5")] "limit" := by
  have h := c6_canonical_redirect
    { args := [("limit", "5")], ifNoneMatch := none,
      baseUrl := "http://localhost/calendar.ics" }
    [] ⟨2025, 12, 15, 12, 0, 0, 0⟩ (by decide)
  exact ⟨h.1, h.2.2.2.2.2 "limit" (by decide)⟩

/-- C7: on a non-canonical (slug) path, a request whose `If-None-Match`
equals the fingerprint gets exactly a 304 with an empty body and no
headers (the renderer is never reached: the branch returns before the
render call); any other request gets a 200 whose body is the rendered
document. -/
theorem c7_slug_conditional (req : IcsRequest) (rows : List CalendarEventRow)
    (now : PyDatetime) :
    (req.ifNoneMatch = some (computeEtag rows now) →
        public_calendar_ics_impl req false rows now
          = { status := 304, body := "", headers := [] })
      ∧ (req.ifNoneMatch ≠ some (computeEtag rows now) →
          (public_calendar_ics_impl req false rows now).status = 200
            ∧ (public_calendar_ics_impl req false rows now).body
                = render_calendar_ics (rows.map fun r => calendar_event_to_ics_event r now)) := by
  constructor
  · intro h
    simp [public_calendar_ics_impl, h]
  · intro h
    have hrep : (public_calendar_ics_impl req false rows now)
        = { status := 200,
            body := render_calendar_ics (rows.map fun r => calendar_event_to_ics_event r now),
            headers := ("Content-Type", "text/calendar; charset=utf-8")
              :: noStoreHeaders
              ++ [("Content-Disposition", "inline; filename=\"PossibleNow Events.ics\""),
                  ("ETag", computeEtag rows now),
                  ("Last-Modified", httpDate (newestUpdatedAt rows now))] } := by
      simp [public_calendar_ics_impl, h]
    rw [hrep]
    exact ⟨rfl, rfl⟩

theorem c7_slug_conditional_witness :
    public_calendar_ics_impl
        { args := [],
          ifNoneMatch := some (computeEtag [] ⟨2025, 12, 15, 12, 0, 0, 0⟩),
          baseUrl := "http://localhost/calendar/v1.ics" }
        false [] ⟨2025, 12, 15, 12, 0, 0, 0⟩
      = { status := 304, body := "", headers := [] } :=
  (c7_slug_conditional _ [] ⟨2025, 12, 15, 12, 0, 0, 0⟩).1 rfl

/-- C8: a non-all-day record with a null start instant still becomes a
complete `VEVENT` block — the adapter substitutes the DTSTAMP value as
DTSTART (the adapter and renderer are total functions, so no record aborts
the render). -/
theorem c8_null_start_fallback (row : CalendarEventRow) (now : PyDatetime)
    (had : row.is_all_day = false) (hs : row.start_at = none) :
    (calendar_event_to_ics_event row now).dtstart
        = .dt (calendar_event_to_ics_event row now).dtstamp
      ∧ (calendar_event_to_ics_event row now).dtstamp = rowDtstamp row now
      ∧ "BEGIN:VEVENT" ∈ eventLines (calendar_event_to_ics_event row now)
      ∧ ("DTSTART:" ++ fmt_dt_utc (calendar_event_to_ics_event row now).dtstamp)
          ∈ eventLines (calendar_event_to_ics_event row now)
      ∧ "END:VEVENT" ∈ eventLines (calendar_event_to_ics_event row now) := by
  simp [calendar_event_to_ics_event, had, hs, eventLines, dtstartLines]

theorem c8_null_start_fallback_witness :
    ("DTSTART:" ++ fmt_dt_utc (calendar_event_to_ics_event
        { id := "r1", title := some "broken",
          created_at := some ⟨2025, 12, 15, 8, 0, 0, 0⟩ }
        ⟨2025, 12, 15, 12, 0, 0, 0⟩).dtstamp)
      ∈ eventLines (calendar_event_to_ics_event
          { id := "r1", title := some "broken",
            created_at := some ⟨2025, 12, 15, 8, 0, 0, 0⟩ }
          ⟨2025, 12, 15, 12, 0, 0, 0⟩) :=
  (c8_null_start_fallback
    { id := "r1", title := some "broken",
      created_at := some ⟨2025, 12, 15, 8, 0, 0, 0⟩ }
    ⟨2025, 12, 15, 12, 0, 0, 0⟩ rfl rfl).2.2.2.1

/-- C9: the `limit` query parameter is clamped into [1, 10000] — below 1
becomes 1, above 10000 becomes 10000, in-range values pass through — and an
absent parameter yields the default 2000.  (The controller is a total
function of the request, so no `limit` value is rejected.) -/
theorem c9_limit_clamped :
    (∀ args : List (String × String),
        1 ≤ effectiveLimit args ∧ effectiveLimit args ≤ 10000)
      ∧ (∀ args : List (String × String), argsGet args "limit" = none →
          requestLimit args = 2000 ∧ effectiveLimit args = 2000)
      ∧ (∀ n : Int, n < 1 → clampLimit n = 1)
      ∧ (∀ n : Int, 10000 < n → clampLimit n = 10000)
      ∧ (∀ n : Int, 1 ≤ n → n ≤ 10000 → clampLimit n = n) := by
  refine ⟨?_, ?_, ?_, ?_, ?_⟩
  · intro args
    unfold effectiveLimit clampLimit
    constructor
    · exact le_max_left 1 _
    · have h1 : min (requestLimit args) 10000 ≤ 10000 := min_le_right _ _
      omega
  · intro args h
    unfold requestLimit effectiveLimit clampLimit requestLimit
    rw [h]
    exact ⟨rfl, by decide⟩
  · intro n h
    unfold clampLimit
    omega
  · intro n h
    unfold clampLimit
    omega
  · intro n h1 h2
    unfold clampLimit
    omega

theorem c9_limit_clamped_witness :
    (1 ≤ effectiveLimit [("limit", "99999")]
      ∧ effectiveLimit [("limit", "99999")] ≤ 10000)
      ∧ clampLimit (-5) = 1
      ∧ clampLimit 99999 = 10000
      ∧ clampLimit 2000 = 2000
      ∧ requestLimit [] = 2000 :=
  ⟨c9_limit_clamped.1 [("limit", "99999")],
   c9_limit_clamped.2.2.1 (-5) (by decide),
   c9_limit_clamped.2.2.2.1 99999 (by decide),
   c9_limit_clamped.2.2.2.2 2000 (by decide) (by decide),
   (c9_limit_clamped.2.1 [] rfl).1⟩

/-- C10: an all-day record with a null start instant falls through to the
timed-event branch: DTSTART is the DTSTAMP fallback rendered as a UTC
instant (the DTSTART emission carries no `VALUE=DATE` parameter), and DTEND
is the record's end instant, as an instant, when present. -/
theorem c10_allday_null_start_timed (row : CalendarEventRow) (now : PyDatetime)
    (had : row.is_all_day = true) (hs : row.start_at = none) :
    (calendar_event_to_ics_event row now).dtstart
        = .dt (calendar_event_to_ics_event row now).dtstamp
      ∧ (calendar_event_to_ics_event row now).dtend
          = row.end_at.map DateOrDatetime.dt
      ∧ dtstartLines (calendar_event_to_ics_event row now)
          = ["DTSTART:" ++ fmt_dt_utc (calendar_event_to_ics_event row now).dtstamp]
      ∧ dtendLines (calendar_event_to_ics_event row now)
          = (row.end_at.map fun t => "DTEND:" ++ fmt_dt_utc t).toList := by
  refine ⟨?_, ?_, ?_, ?_⟩
  · simp [calendar_event_to_ics_event, had, hs]
  · simp [calendar_event_to_ics_event, had, hs]
  · simp [calendar_event_to_ics_event, had, hs, dtstartLines]
  · cases he : row.end_at with
    | none => simp [calendar_event_to_ics_event, had, hs, he, dtendLines]
    | some t => simp [calendar_event_to_ics_event, had, hs, he, dtendLines]

theorem c10_allday_null_start_timed_witness :
    dtstartLines (calendar_event_to_ics_event
        { id := "r1", is_all_day := true,
          end_at := some ⟨2025, 12, 16, 0, 0, 0, 0⟩,
          updated_at := some ⟨2025, 12, 15, 9, 0, 0, 0⟩ }
        ⟨2025, 12, 15, 12, 0, 0, 0⟩)
      = ["DTSTART:" ++ fmt_dt_utc (calendar_event_to_ics_event
          { id := "r1", is_all_day := true,
            end_at := some ⟨2025, 12, 16, 0, 0, 0, 0⟩,
            updated_at := some ⟨2025, 12, 15, 9, 0, 0, 0⟩ }
          ⟨2025, 12, 15, 12, 0, 0, 0⟩).dtstamp]
      ∧ (calendar_event_to_ics_event
          { id := "r1", is_all_day := true,
            end_at := some ⟨2025, 12, 16, 0, 0, 0, 0⟩,
            updated_at := some ⟨2025, 12, 15, 9, 0, 0, 0⟩ }
          ⟨2025, 12, 15, 12, 0, 0, 0⟩).dtend
          = some (.dt ⟨2025, 12, 16, 0, 0, 0, 0⟩) := by
  have h := c10_allday_null_start_timed
    { id := "r1", is_all_day := true,
      end_at := some ⟨2025, 12, 16, 0, 0, 0, 0⟩,
      updated_at := some ⟨2025, 12, 15, 9, 0, 0, 0⟩ }
    ⟨2025, 12, 15, 12, 0, 0, 0⟩ rfl rfl
  exact ⟨h.2.2.1, by rw [h.2.1]; rfl⟩

